import Mathlib

/-!
Verification of `misc/update_deprecated_exps.py` (DVE repository).

The script migrates legacy experiment artifacts into a canonical layout.
We give a shallow embedding of its three core routines:

* `parse_tboard_files` — decodes a tensorboard event stream into log lines;
* `parse_old_log`      — truncates a legacy text log at a checkpoint marker;
* `modernize_exp_dir` / `standardize_exp_dir` — the two migration pipelines,
  modelled as transformers over an explicit file-system state.

Machine floats only ever flow through the script as opaque formatted text
(`f"{x['simple_value']}"`, `time.strftime`), so values and timestamps are
carried as strings; all control flow of the source is preserved.
-/

namespace DVE

/-! ## Tensorboard event-stream decoder (`parse_tboard_files`) -/

/-- One entry of a summary's `value` list after `protobuf_to_dict`:
a `tag`, an optional `simple_value` (the formatted scalar, absent for
non-scalar entries) and whether the `image` key is present. -/
structure SummaryValue where
  tag : String
  simple_value : Option String
  image : Bool
deriving DecidableEq, Repr

/-- One record of the event stream after `protobuf_to_dict`.  `step` is
present for value summaries; `ts` is the formatted wall time
(`time.strftime('%Y-%m-%d:%Hh%Mm%Ss', time.gmtime(wall_time))`);
`summaryValues` is `some vs` when the record has a `summary` field whose
`value` list is `vs`. -/
structure Summary where
  step : Option Nat
  ts : String
  summaryValues : Option (List SummaryValue)
deriving DecidableEq, Repr

/-- The event stream as yielded by `tf.train.summary_iterator`: the records
produced, and whether the iterator raises `DataLossError` (a corrupted
tail) after producing them. -/
structure EventStream where
  records : List Summary
  dataLoss : Bool
deriving DecidableEq, Repr

/-- The list comprehension `[f"{x['tag']}: {x['simple_value']}" for x in value]`:
`none` models the `KeyError` raised when some entry lacks `simple_value`. -/
def valsOf : List SummaryValue → Option (List String)
  | [] => some []
  | x :: xs =>
    match x.simple_value, valsOf xs with
    | some sv, some rest => some ((x.tag ++ ": " ++ sv) :: rest)
    | _, _ => none

/-- The body of the decoding loop for a single record: `none` models an
uncaught `KeyError`; `some gen_log` is the updated accumulator. -/
def stepSummary (s : Summary) (gen_log : List String) : Option (List String) :=
  match s.step with
  | none => some gen_log
  | some step =>
    match s.summaryValues with
    | some (v0 :: value) =>
      if v0.simple_value.isSome then
        match valsOf (v0 :: value) with
        | none => none
        | some vals =>
          if step % 2000 == 0 || v0.tag != "train/loss" then
            some (gen_log ++
              [s.ts ++ " step: " ++ toString step ++ ", " ++ String.intercalate "," vals])
          else
            some gen_log
      else if v0.image then
        some gen_log
      else
        some gen_log
    | _ => some gen_log

/-- Outcome of the decoding loop before the `try/except` is applied. -/
inductive LoopResult where
  | ok (gen_log : List String)
  | dataLoss (gen_log : List String)
  | keyError
deriving DecidableEq, Repr

/-- The decoding loop: `count` is incremented for each record, and the loop
breaks once `count > 1000`.  Reaching the end of the record list raises
`DataLossError` when the stream has a corrupted tail. -/
def parseLoop (dl : Bool) : List Summary → Nat → List String → LoopResult
  | [], _, gen_log => if dl then .dataLoss gen_log else .ok gen_log
  | s :: rest, count, gen_log =>
    if count + 1 > 1000 then .ok gen_log
    else
      match stepSummary s gen_log with
      | none => .keyError
      | some gen_log => parseLoop dl rest (count + 1) gen_log

/-- Failures `parse_tboard_files` does not catch. -/
inductive DecodeErr where
  | keyError
deriving DecidableEq, Repr

/-- The `except tf.errors.DataLossError` handler: the accumulated log is
returned; any other failure propagates. -/
def catchDataLoss : LoopResult → Except DecodeErr (List String)
  | .ok gen_log => .ok gen_log
  | .dataLoss gen_log => .ok gen_log
  | .keyError => .error .keyError

/-- Embedding of `parse_tboard_files`.  `tbName` is the name of the single
`events.out.tfevents.*` file found in the source directory. -/
def parse_tboard_files (tbName : String) (stream : EventStream) :
    Except DecodeErr (List String) :=
  catchDataLoss (parseLoop stream.dataLoss stream.records 0
    ["This log was generated from tensorboard file " ++ tbName])

/-- Specification-side characterisation of the line a single record
contributes (used to state the subsampling claim). -/
def emitRow (s : Summary) : Option String :=
  match s.step, s.summaryValues with
  | some step, some (v0 :: value) =>
    match valsOf (v0 :: value) with
    | some vals =>
      if step % 2000 == 0 || v0.tag != "train/loss" then
        some (s.ts ++ " step: " ++ toString step ++ ", " ++ String.intercalate "," vals)
      else none
    | none => none
  | _, _ => none

/-- A record is scalar-valued with a step: it has a `step`, a nonempty
`value` list, and every entry carries a `simple_value`. -/
def scalarRecord (s : Summary) : Bool :=
  s.step.isSome &&
    (match s.summaryValues with
     | some (v0 :: value) => (v0 :: value).all (fun x => x.simple_value.isSome)
     | _ => false)

theorem valsOf_of_all_some (l : List SummaryValue)
    (h : ∀ x ∈ l, x.simple_value.isSome = true) :
    valsOf l = some (l.map (fun x => x.tag ++ ": " ++ (x.simple_value.getD ""))) := by
  induction l with
  | nil => rfl
  | cons x xs ih =>
    have hx := h x (List.mem_cons_self x xs)
    obtain ⟨sv, hsv⟩ := Option.isSome_iff_exists.mp hx
    have ihs := ih (fun y hy => h y (List.mem_cons_of_mem x hy))
    simp [valsOf, hsv, ihs]

theorem stepSummary_scalar (s : Summary) (g : List String)
    (h : scalarRecord s = true) :
    stepSummary s g = some (g ++ (emitRow s).toList) := by
  unfold scalarRecord at h
  obtain ⟨hstep, hvals⟩ := Bool.and_eq_true_iff.mp h
  obtain ⟨step, hstep⟩ := Option.isSome_iff_exists.mp hstep
  match hsv : s.summaryValues with
  | none => rw [hsv] at hvals; simp at hvals
  | some [] => rw [hsv] at hvals; simp at hvals
  | some (v0 :: value) =>
    rw [hsv] at hvals
    have hall : ∀ x ∈ (v0 :: value), x.simple_value.isSome = true :=
      List.all_eq_true.mp hvals
    have h0 : v0.simple_value.isSome = true := hall v0 (List.mem_cons_self v0 value)
    have hv := valsOf_of_all_some (v0 :: value) hall
    simp only [stepSummary, emitRow, hstep, hsv, hv, h0, if_true]
    by_cases hc : (step % 2000 == 0 || v0.tag != "train/loss") = true
    · simp [hc]
    · rw [Bool.not_eq_true] at hc
      simp [hc]

theorem parseLoop_scalar (recs : List Summary) :
    ∀ (n : Nat) (g : List String), n + recs.length ≤ 1000 →
    (∀ s ∈ recs, scalarRecord s = true) →
    parseLoop false recs n g = .ok (g ++ recs.filterMap emitRow) := by
  induction recs with
  | nil => intro n g _ _; simp [parseLoop]
  | cons s rest ih =>
    intro n g hn hsc
    have hcap : ¬ (n + 1 > 1000) := by
      simp only [List.length_cons] at hn; omega
    have hs := stepSummary_scalar s g (hsc s (List.mem_cons_self s rest))
    have hrest := ih (n + 1) (g ++ (emitRow s).toList)
      (by simp only [List.length_cons] at hn; omega)
      (fun x hx => hsc x (List.mem_cons_of_mem s hx))
    simp only [parseLoop, if_neg hcap, hs, hrest]
    cases hrow : emitRow s <;> simp [List.filterMap_cons, hrow]

theorem parseLoop_dataLoss_irrel (dl : Bool) (recs : List Summary) :
    ∀ (n : Nat) (g : List String),
    catchDataLoss (parseLoop dl recs n g) = catchDataLoss (parseLoop false recs n g) := by
  induction recs with
  | nil => intro n g; cases dl <;> rfl
  | cons s rest ih =>
    intro n g
    simp only [parseLoop]
    by_cases hcap : (n + 1 > 1000)
    · rw [if_pos hcap, if_pos hcap]
    · rw [if_neg hcap, if_neg hcap]
      cases hs : stepSummary s g with
      | none => rfl
      | some g2 => exact ih (n + 1) g2

theorem parseLoop_take (recs : List Summary) :
    ∀ (n : Nat) (g : List String),
    parseLoop false recs n g = parseLoop false (recs.take (1000 - n)) n g := by
  induction recs with
  | nil => intro n g; simp
  | cons s rest ih =>
    intro n g
    by_cases hcap : (n + 1 > 1000)
    · have h0 : 1000 - n = 0 := by omega
      rw [h0, List.take_zero]
      simp only [parseLoop, if_pos hcap]
      simp
    · have h1 : 1000 - n = (1000 - (n + 1)) + 1 := by omega
      rw [h1, List.take_succ_cons]
      simp only [parseLoop]
      rw [if_neg hcap, if_neg hcap]
      cases hs : stepSummary s g with
      | none => rfl
      | some g2 => exact ih (n + 1) g2

theorem emitRow_isSome_iff (s : Summary) (step : Nat) (v0 : SummaryValue)
    (value : List SummaryValue)
    (hsc : scalarRecord s = true)
    (hstep : s.step = some step)
    (hsv : s.summaryValues = some (v0 :: value)) :
    (emitRow s).isSome = true ↔ (step % 2000 = 0 ∨ v0.tag ≠ "train/loss") := by
  unfold scalarRecord at hsc
  obtain ⟨-, hvals⟩ := Bool.and_eq_true_iff.mp hsc
  rw [hsv] at hvals
  have hall : ∀ x ∈ (v0 :: value), x.simple_value.isSome = true :=
    List.all_eq_true.mp hvals
  have hv := valsOf_of_all_some (v0 :: value) hall
  have hcond : ((step % 2000 == 0 || v0.tag != "train/loss") = true) ↔
      (step % 2000 = 0 ∨ v0.tag ≠ "train/loss") := by
    simp [Bool.or_eq_true, beq_iff_eq, bne_iff_ne]
  by_cases hc : (step % 2000 == 0 || v0.tag != "train/loss") = true
  · simp only [emitRow, hstep, hsv, hv, if_pos hc, Option.isSome_some, true_iff]
    exact hcond.mp hc
  · simp only [emitRow, hstep, hsv, hv, if_neg hc, Option.isSome_none,
      Bool.false_eq_true, false_iff]
    exact fun h => hc (hcond.mpr h)

/-- C1: a scalar-valued record carrying a step contributes exactly one
formatted line (timestamp, step, and all tag/value pairs) if and only if its
step is a multiple of 2000 or its (first) tag is not the dominant metric
`train/loss`; the decoded log is the header line followed by exactly the
lines of the records satisfying this policy. -/
theorem C1_scalar_subsampling (tbName : String) (recs : List Summary) (dl : Bool)
    (hlen : recs.length ≤ 1000)
    (hsc : ∀ s ∈ recs, scalarRecord s = true) :
    parse_tboard_files tbName ⟨recs, dl⟩ =
      .ok (("This log was generated from tensorboard file " ++ tbName) ::
        recs.filterMap emitRow) ∧
    ∀ s ∈ recs, ∀ (step : Nat) (v0 : SummaryValue) (value : List SummaryValue),
      s.step = some step → s.summaryValues = some (v0 :: value) →
      ((emitRow s).isSome = true ↔ (step % 2000 = 0 ∨ v0.tag ≠ "train/loss")) := by
  constructor
  · show catchDataLoss (parseLoop dl recs 0 _) = _
    rw [parseLoop_dataLoss_irrel dl recs 0]
    rw [parseLoop_scalar recs 0 _ (by omega) hsc]
    rfl
  · intro s hs step v0 value hstep hsv
    exact emitRow_isSome_iff s step v0 value (hsc s hs) hstep hsv

/-- A scalar record with a single tag/value pair, used as concrete input. -/
def mkScalar (ts : String) (step : Nat) (tag v : String) : Summary :=
  { step := some step, ts := ts,
    summaryValues := some [{ tag := tag, simple_value := some v, image := false }] }

/-- Concrete stream: dominant tag at steps 0, 1000, 2000, 3000, 4000 and a
non-dominant tag at steps 0, 1000, 3000. -/
def c1recs : List Summary :=
  [ mkScalar "T0" 0 "train/loss" "0.9", mkScalar "T1" 1000 "train/loss" "0.8",
    mkScalar "T2" 2000 "train/loss" "0.7", mkScalar "T3" 3000 "train/loss" "0.6",
    mkScalar "T4" 4000 "train/loss" "0.5",
    mkScalar "V0" 0 "val/acc" "0.1", mkScalar "V1" 1000 "val/acc" "0.2",
    mkScalar "V2" 3000 "val/acc" "0.3" ]

theorem C1_scalar_subsampling_witness :
    c1recs.length ≤ 1000 ∧
    (∀ s ∈ c1recs, scalarRecord s = true) ∧
    parse_tboard_files "events.out.tfevents.123" ⟨c1recs, false⟩ =
      .ok (("This log was generated from tensorboard file " ++ "events.out.tfevents.123") ::
        c1recs.filterMap emitRow) ∧
    c1recs.filterMap emitRow =
      [ "T0 step: 0, train/loss: 0.9", "T2 step: 2000, train/loss: 0.7",
        "T4 step: 4000, train/loss: 0.5", "V0 step: 0, val/acc: 0.1",
        "V1 step: 1000, val/acc: 0.2", "V2 step: 3000, val/acc: 0.3" ] :=
  ⟨by decide, by decide,
    (C1_scalar_subsampling "events.out.tfevents.123" c1recs false (by decide) (by decide)).1,
    by decide⟩

/-- C4: the decoder stops after the fixed cap of 1000 records: the returned
log is derived only from the first 1000 records of the stream. -/
theorem C4_record_cap (tbName : String) (recs : List Summary) (dl : Bool) :
    parse_tboard_files tbName ⟨recs, dl⟩ =
      parse_tboard_files tbName ⟨recs.take 1000, dl⟩ := by
  show catchDataLoss (parseLoop dl recs 0 _) =
    catchDataLoss (parseLoop dl (recs.take 1000) 0 _)
  rw [parseLoop_dataLoss_irrel dl recs 0, parseLoop_dataLoss_irrel dl (recs.take 1000) 0]
  rw [parseLoop_take recs 0]

/-- C8: a `DataLossError` raised while iterating the stream is not
propagated: the decoder returns exactly the lines decoded from the records
before the corruption point, as if the stream had ended there. -/
theorem C8_dataLoss_not_propagated (tbName : String) (recs : List Summary) :
    parse_tboard_files tbName ⟨recs, true⟩ = parse_tboard_files tbName ⟨recs, false⟩ :=
  parseLoop_dataLoss_irrel true recs 0
    ["This log was generated from tensorboard file " ++ tbName]

/-! ## Legacy text-log normalizer (`parse_old_log`) -/

/-- Python substring containment (`pat in row`), on the character lists. -/
def strContains (row pat : String) : Bool :=
  (List.range (row.data.length + 1)).any
    (fun i => (row.data.drop i).take pat.data.length == pat.data)

/-- The checkpoint tag `f"checkpoint-epoch{fixed_epochs}.pth"`. -/
def logTag (fixed_epochs : Nat) : String :=
  "checkpoint-epoch" ++ toString fixed_epochs ++ ".pth"

/-- The marker predicate: the checkpoint tag and the token `trainer` both
occur in the row. -/
def markerLine (tag row : String) : Bool :=
  strContains row tag && strContains row "trainer"

/-- Fatal failures of `parse_old_log`: the `assert` on the marker count,
and the out-of-bounds read `log[pos + 1]`. -/
inductive LogErr where
  | assertionError
  | indexError
deriving DecidableEq, Repr

/-- The marker position `pos = np.where(presence)[0].item()`. -/
def markerPos (log : List String) (tag : String) : Nat :=
  (log.map (fun row => markerLine tag row)).findIdx (fun b => b)

/-- The two generated header lines (provenance, then the config banner). -/
def genHeader (timestamp : String) : List String :=
  ["This log was generated from an existing log for experiemnt " ++ timestamp,
   "Launching experiment with config:"]

/-- Embedding of `parse_old_log`.  `timestamp` is `Path(log_path).parent.stem`;
`config` and `log` are the line lists read from the two files. -/
def parse_old_log (timestamp : String) (config log : List String)
    (fixed_epochs : Nat) : Except LogErr (List String) :=
  if (log.map (fun row => markerLine (logTag fixed_epochs) row)).count true = 1 then
    match log[markerPos log (logTag fixed_epochs) + 1]? with
    | none => .error .indexError
    | some nextRow =>
      .ok (genHeader timestamp ++ config ++
        log.take (markerPos log (logTag fixed_epochs) + 1 +
          (if strContains nextRow "Training took" then 1 else 0)))
  else .error .assertionError

theorem findIdx_eq_of_count_one (bs : List Bool) :
    ∀ (pos : Nat) (h : pos < bs.length), bs.count true = 1 →
    bs.get ⟨pos, h⟩ = true → bs.findIdx (fun b => b) = pos := by
  induction bs with
  | nil => intro pos h; simp at h
  | cons b bs ih =>
    intro pos h hcount hget
    cases b with
    | true =>
      cases pos with
      | zero => simp [List.findIdx_cons]
      | succ k =>
        have hz : bs.count true = 0 := by
          simpa [List.count_cons] using hcount
        have hk : k < bs.length := by
          simpa using h
        have hgk : bs.get ⟨k, hk⟩ = true := by
          simpa using hget
        have hmem : true ∈ bs := by
          rw [← hgk]; exact bs.get_mem k hk
        rw [List.count_eq_zero] at hz
        exact absurd hmem hz
    | false =>
      cases pos with
      | zero => simp at hget
      | succ k =>
        have hc : bs.count true = 1 := by
          simpa [List.count_cons] using hcount
        have hk : k < bs.length := by
          simpa using h
        have hgk : bs.get ⟨k, hk⟩ = true := by
          simpa using hget
        have := ih k hk hc hgk
        simp [List.findIdx_cons, this]

theorem markerPos_eq (log : List String) (tag : String) (pos : Nat)
    (hpos : pos < log.length)
    (hcount : (log.map (fun row => markerLine tag row)).count true = 1)
    (hmark : markerLine tag (log.get ⟨pos, hpos⟩) = true) :
    markerPos log tag = pos := by
  apply findIdx_eq_of_count_one (log.map (fun row => markerLine tag row)) pos
    (by simpa using hpos) hcount
  simp [List.get_eq_getElem, List.getElem_map]
  simpa [List.get_eq_getElem] using hmark

/-- C2: on a log whose unique marker line sits at index `pos` (with a line
after it), `parse_old_log` returns the two generated header lines, the
verbatim config lines, and the log truncated just after the marker, keeping
one extra line exactly when that next line contains `Training took`. -/
theorem C2_truncation (timestamp : String) (config log : List String)
    (N pos : Nat) (hpos : pos < log.length) (hnext : pos + 1 < log.length)
    (hcount : (log.map (fun row => markerLine (logTag N) row)).count true = 1)
    (hmark : markerLine (logTag N) (log.get ⟨pos, hpos⟩) = true) :
    parse_old_log timestamp config log N =
      .ok (genHeader timestamp ++ config ++
        (log.take (pos + 1) ++
          (if strContains (log.get ⟨pos + 1, hnext⟩) "Training took"
           then [log.get ⟨pos + 1, hnext⟩] else []))) := by
  have hfind : markerPos log (logTag N) = pos := markerPos_eq log (logTag N) pos hpos hcount hmark
  unfold parse_old_log
  rw [if_pos hcount, hfind, List.getElem?_eq_getElem hnext]
  by_cases hc : strContains log[pos + 1] "Training took" = true
  · simp only [List.get_eq_getElem, hc, if_true, if_pos hc]
    rw [show pos + 1 + 1 = (pos + 1) + 1 from rfl, List.take_succ,
      List.getElem?_eq_getElem hnext]
    rfl
  · rw [Bool.not_eq_true] at hc
    simp only [List.get_eq_getElem, hc, Bool.false_eq_true, if_false]
    simp

/-- Concrete config lines for the normalizer witnesses. -/
def c2cfg : List String := ["lr: 0.1", "epochs: 100"]

/-- Concrete legacy log: one marker line at index 1, then a timing line. -/
def c2log : List String :=
  ["epoch 99 done", "trainer : saving checkpoint-epoch100.pth ...",
   "Training took 2 days"]

theorem C2_truncation_witness :
    (1 : Nat) < c2log.length ∧ 1 + 1 < c2log.length ∧
    (c2log.map (fun row => markerLine (logTag 100) row)).count true = 1 ∧
    markerLine (logTag 100) (c2log.get ⟨1, by decide⟩) = true ∧
    parse_old_log "ts2019" c2cfg c2log 100 =
      .ok (genHeader "ts2019" ++ c2cfg ++
        (c2log.take 2 ++
          (if strContains (c2log.get ⟨1 + 1, by decide⟩) "Training took"
           then [c2log.get ⟨1 + 1, by decide⟩] else []))) :=
  ⟨by decide, by decide, by decide, by decide,
    C2_truncation "ts2019" c2cfg c2log 100 1 (by decide) (by decide)
      (by decide) (by decide)⟩

/-- C5: `parse_old_log` fails with the fatal assertion whenever the number
of marker lines is not exactly one, and in that case never returns a log. -/
theorem C5_marker_count_assert (timestamp : String) (config log : List String)
    (N : Nat)
    (hcount : (log.map (fun row => markerLine (logTag N) row)).count true ≠ 1) :
    parse_old_log timestamp config log N = .error .assertionError ∧
    ∀ out, parse_old_log timestamp config log N ≠ .ok out := by
  have h : parse_old_log timestamp config log N = .error .assertionError := by
    unfold parse_old_log
    rw [if_neg hcount]
  refine ⟨h, fun out hok => ?_⟩
  rw [h] at hok
  cases hok

/-- Concrete log with two marker lines. -/
def c5log : List String :=
  ["trainer : saving checkpoint-epoch100.pth ...",
   "trainer : saving checkpoint-epoch100.pth again"]

theorem C5_marker_count_assert_witness :
    (c5log.map (fun row => markerLine (logTag 100) row)).count true ≠ 1 ∧
    parse_old_log "ts2019" c2cfg c5log 100 = .error .assertionError :=
  ⟨by decide, (C5_marker_count_assert "ts2019" c2cfg c5log 100 (by decide)).1⟩

/-- C9: if the unique marker line is the final line of the log, the read of
`log[pos + 1]` is out of bounds and `parse_old_log` fails instead of
returning a truncated log. -/
theorem C9_marker_last_line (timestamp : String) (config log : List String)
    (N pos : Nat) (hpos : pos < log.length) (hlast : pos + 1 = log.length)
    (hcount : (log.map (fun row => markerLine (logTag N) row)).count true = 1)
    (hmark : markerLine (logTag N) (log.get ⟨pos, hpos⟩) = true) :
    parse_old_log timestamp config log N = .error .indexError := by
  have hfind : markerPos log (logTag N) = pos := markerPos_eq log (logTag N) pos hpos hcount hmark
  unfold parse_old_log
  rw [if_pos hcount, hfind, List.getElem?_eq_none (by omega)]

/-- Concrete log whose single marker line is the last line. -/
def c9log : List String :=
  ["epoch 99 done", "trainer : saving checkpoint-epoch100.pth ..."]

theorem C9_marker_last_line_witness :
    (1 : Nat) < c9log.length ∧ 1 + 1 = c9log.length ∧
    (c9log.map (fun row => markerLine (logTag 100) row)).count true = 1 ∧
    markerLine (logTag 100) (c9log.get ⟨1, by decide⟩) = true ∧
    parse_old_log "ts2019" c2cfg c9log 100 = .error .indexError :=
  ⟨by decide, by decide, by decide, by decide,
    C9_marker_last_line "ts2019" c2cfg c9log 100 1 (by decide) (by decide)
      (by decide) (by decide)⟩

/-! ## File-system model and the two migration pipelines -/

/-- File-system state: maps an absolute path to the contents of the file
stored there, if any.  Directories are created on demand by the script
(`mkdir(exist_ok=True, parents=True)`) and carry no content, so they are
not modelled. -/
def FS := String → Option String

/-- Writing a file (used for `shutil.copyfile` targets and the log files
produced by the per-run logger). -/
def setFile (fs : FS) (p c : String) : FS :=
  fun q => if q = p then some c else fs q

/-- `Path.unlink`. -/
def removeFile (fs : FS) (p : String) : FS :=
  fun q => if q = p then none else fs q

/-- `Path.exists`. -/
def fileExists (fs : FS) (p : String) : Bool := (fs p).isSome

/-- `shutil.copyfile`: byte-for-byte copy; fails (`FileNotFoundError`)
when the source is absent. -/
def copyfile (fs : FS) (src dst : String) : Option FS :=
  match fs src with
  | some c => some (setFile fs dst c)
  | none => none

/-- Splitting a character list at every occurrence of the separator
(Python `str.split(sep)` for a one-character separator). -/
def splitOnChar (c : Char) : List Char → List (List Char)
  | [] => [[]]
  | a :: rest =>
    match splitOnChar c rest with
    | [] => [[]]
    | grp :: grps => if a = c then [] :: grp :: grps else (a :: grp) :: grps

/-- String split at a one-character separator. -/
def splitOnStr (s : String) (c : Char) : List String :=
  (splitOnChar c s.data).map String.mk

/-- `rel_dir.split("/")[-1]`. -/
def lastComponent (p : String) : String := ((splitOnStr p '/').getLast?).getD ""

/-- `Path(p).parent.stem`: the name of the directory containing `p`. -/
def parentStem (p : String) : String :=
  (((splitOnStr p '/').dropLast).getLast?).getD ""

/-- Contents written for a list of logger rows. -/
def joinLines (l : List String) : String := String.intercalate "\n" l

/-- `open(p).read().splitlines()`. -/
def readLines (fs : FS) (p : String) : Option (List String) :=
  (fs p).map (fun c => splitOnStr c '\n')

/-- `Path(save_dir) / "log" / key / timestamp / "info.log"`. -/
def dest_log_path (save_dir key timestamp : String) : String :=
  save_dir ++ "/log/" ++ key ++ "/" ++ timestamp ++ "/info.log"

/-- `Path(save_dir) / "models" / key / timestamp / "config.json"`. -/
def dest_config_path (save_dir key timestamp : String) : String :=
  save_dir ++ "/models/" ++ key ++ "/" ++ timestamp ++ "/config.json"

/-- `Path(save_dir) / "models" / key / timestamp / "model_best.pth"`. -/
def dest_model_path (save_dir key timestamp : String) : String :=
  save_dir ++ "/models/" ++ key ++ "/" ++ timestamp ++ "/model_best.pth"

/-- `Path(save_dir) / "models" / key / timestamp / f"checkpoint-epoch{epoch}.pth"`. -/
def ckpt_model_path (save_dir key timestamp : String) (epoch : Nat) : String :=
  save_dir ++ "/models/" ++ key ++ "/" ++ timestamp ++ "/checkpoint-epoch" ++
    toString epoch ++ ".pth"

/-- The argument set handed to the external `evaluation` routine. -/
structure EvalConfig where
  config : String
  device : String
  mini_eval : Nat
  resume : String
deriving DecidableEq, Repr

/-- The evaluation configuration built by `modernize_exp_dir`: `--config`
is the copied config; `--resume` is `Path(rel_dir) / "model_best.pth"`,
the checkpoint in the original source directory. -/
def modernize_eval_config (save_dir key rel_dir : String) : EvalConfig :=
  { config := dest_config_path save_dir key (lastComponent rel_dir),
    device := "0", mini_eval := 1,
    resume := rel_dir ++ "/model_best.pth" }

/-- The evaluation configuration built by `standardize_exp_dir`: `--config`
is the canonical config; `--resume` is the canonical checkpoint. -/
def standardize_eval_config (save_dir key timestamp : String) (epoch : Nat) :
    EvalConfig :=
  { config := dest_config_path save_dir key timestamp,
    device := "3", mini_eval := 1,
    resume := ckpt_model_path save_dir key timestamp epoch }

/-- Manifest data for one deprecated experiment: its key, the source
directory `checkpoints[key]["timestamp"]`, and the single tensorboard file
found there (name and decoded stream). -/
structure ModExperiment where
  key : String
  rel_dir : String
  tbName : String
  stream : EventStream

/-- The artifact-transfer phase of `modernize_exp_dir`: copy the config
and the checkpoint unless the destination exists and no refresh is forced. -/
def modernize_copy_phase (refresh : Bool)
    (src_config config_path src_model model_path : String) (fs : FS) :
    Option FS :=
  (if !(fileExists fs config_path) || refresh
   then copyfile fs src_config config_path
   else some fs).bind
    (fun fs2 =>
      if !(fileExists fs2 model_path) || refresh
      then copyfile fs2 src_model model_path
      else some fs2)

/-- One iteration of `modernize_exp_dir`.  `evalFn` is the external
evaluation routine, an arbitrary transformer of the file system; the
generated log rows are written to the destination `info.log` by the
per-run logger.  `none` models an uncaught exception aborting the run. -/
def modernize_step (save_dir : String) (refresh : Bool)
    (evalFn : EvalConfig → FS → FS) (e : ModExperiment) (fs : FS) :
    Option FS :=
  (modernize_copy_phase refresh
      (e.rel_dir ++ "/config.json")
      (dest_config_path save_dir e.key (lastComponent e.rel_dir))
      (e.rel_dir ++ "/model_best.pth")
      (dest_model_path save_dir e.key (lastComponent e.rel_dir)) fs).bind
    (fun fs2 =>
      if !(fileExists fs2 (dest_log_path save_dir e.key (lastComponent e.rel_dir)))
          || refresh then
        match parse_tboard_files e.tbName e.stream with
        | .error _ => none
        | .ok generated_log =>
          some (evalFn (modernize_eval_config save_dir e.key e.rel_dir)
            (setFile fs2 (dest_log_path save_dir e.key (lastComponent e.rel_dir))
              (joinLines generated_log)))
      else some fs2)

/-- Embedding of `modernize_exp_dir`: the experiments in order. -/
def modernize_exp_dir (save_dir : String) (refresh : Bool)
    (evalFn : EvalConfig → FS → FS) : List ModExperiment → FS → Option FS
  | [], fs => some fs
  | e :: rest, fs =>
    (modernize_step save_dir refresh evalFn e fs).bind
      (modernize_exp_dir save_dir refresh evalFn rest)

/-- Manifest data for one non-standard experiment. -/
structure StdExperiment where
  key : String
  timestamp : String
  epoch : Nat

/-- One iteration of `standardize_exp_dir`: assert the three artifacts
exist, back up the log, regenerate it through `parse_old_log` (reading the
backup and the config), and re-run evaluation — unless the backup already
exists and no refresh is forced. -/
def standardize_step (save_dir : String) (refresh : Bool)
    (evalFn : EvalConfig → FS → FS) (e : StdExperiment) (fs : FS) :
    Option FS :=
  if fileExists fs (dest_log_path save_dir e.key e.timestamp) &&
     fileExists fs (dest_config_path save_dir e.key e.timestamp) &&
     fileExists fs (ckpt_model_path save_dir e.key e.timestamp e.epoch) then
    if !(fileExists fs (dest_log_path save_dir e.key e.timestamp ++ ".backup"))
        || refresh then
      (copyfile fs (dest_log_path save_dir e.key e.timestamp)
          (dest_log_path save_dir e.key e.timestamp ++ ".backup")).bind
        (fun fs2 =>
          match readLines fs2 (dest_log_path save_dir e.key e.timestamp ++ ".backup"),
                readLines fs2 (dest_config_path save_dir e.key e.timestamp) with
          | some log, some config =>
            match parse_old_log (parentStem (dest_log_path save_dir e.key e.timestamp))
                config log e.epoch with
            | .error _ => none
            | .ok generated_log =>
              some (evalFn (standardize_eval_config save_dir e.key e.timestamp e.epoch)
                (setFile (removeFile fs2 (dest_log_path save_dir e.key e.timestamp))
                  (dest_log_path save_dir e.key e.timestamp)
                  (joinLines generated_log)))
          | _, _ => none)
    else some fs
  else none

/-- Embedding of `standardize_exp_dir`: the experiments in order. -/
def standardize_exp_dir (save_dir : String) (refresh : Bool)
    (evalFn : EvalConfig → FS → FS) : List StdExperiment → FS → Option FS
  | [], fs => some fs
  | e :: rest, fs =>
    (standardize_step save_dir refresh evalFn e fs).bind
      (standardize_exp_dir save_dir refresh evalFn rest)

/-- C3 counterexample: in `modernize_exp_dir` the `--resume` argument is
`Path(rel_dir) / "model_best.pth"` — the checkpoint in the original source
directory — not the copied canonical-location checkpoint. -/
theorem C3_resume_counterexample :
    (modernize_eval_config "data/saved" "color" "srv/runs/2019-05-17").resume ≠
      dest_model_path "data/saved" "color" (lastComponent "srv/runs/2019-05-17") := by
  decide

/-- C3 amended: after writing the canonical log, each pipeline invokes the
external evaluation routine with `--config` pointing at the canonical
(copied) config; `--resume` points at the canonical checkpoint in
`standardize_exp_dir`, but at the original source-directory checkpoint
`rel_dir/model_best.pth` in `modernize_exp_dir`. -/
theorem C3_eval_targets
    (save_dir : String) (evalFn : EvalConfig → FS → FS)
    (e : ModExperiment) (fs fsc : FS) (gl : List String)
    (se : StdExperiment) (gs gs2 : FS) (slog sconfig sgen : List String)
    (hcopy : modernize_copy_phase false (e.rel_dir ++ "/config.json")
        (dest_config_path save_dir e.key (lastComponent e.rel_dir))
        (e.rel_dir ++ "/model_best.pth")
        (dest_model_path save_dir e.key (lastComponent e.rel_dir)) fs = some fsc)
    (hfresh : fileExists fsc (dest_log_path save_dir e.key (lastComponent e.rel_dir)) = false)
    (hparse : parse_tboard_files e.tbName e.stream = .ok gl)
    (hassert : (fileExists gs (dest_log_path save_dir se.key se.timestamp) &&
        fileExists gs (dest_config_path save_dir se.key se.timestamp) &&
        fileExists gs (ckpt_model_path save_dir se.key se.timestamp se.epoch)) = true)
    (hbackup : fileExists gs (dest_log_path save_dir se.key se.timestamp ++ ".backup") = false)
    (hcp : copyfile gs (dest_log_path save_dir se.key se.timestamp)
        (dest_log_path save_dir se.key se.timestamp ++ ".backup") = some gs2)
    (hrl : readLines gs2 (dest_log_path save_dir se.key se.timestamp ++ ".backup") = some slog)
    (hrc : readLines gs2 (dest_config_path save_dir se.key se.timestamp) = some sconfig)
    (hpol : parse_old_log (parentStem (dest_log_path save_dir se.key se.timestamp))
        sconfig slog se.epoch = .ok sgen) :
    modernize_step save_dir false evalFn e fs =
      some (evalFn
        { config := dest_config_path save_dir e.key (lastComponent e.rel_dir),
          device := "0", mini_eval := 1,
          resume := e.rel_dir ++ "/model_best.pth" }
        (setFile fsc (dest_log_path save_dir e.key (lastComponent e.rel_dir))
          (joinLines gl))) ∧
    standardize_step save_dir false evalFn se gs =
      some (evalFn
        { config := dest_config_path save_dir se.key se.timestamp,
          device := "3", mini_eval := 1,
          resume := ckpt_model_path save_dir se.key se.timestamp se.epoch }
        (setFile (removeFile gs2 (dest_log_path save_dir se.key se.timestamp))
          (dest_log_path save_dir se.key se.timestamp)
          (joinLines sgen))) := by
  constructor
  · unfold modernize_step
    rw [hcopy]
    simp [hfresh, hparse, modernize_eval_config]
  · unfold standardize_step
    rw [if_pos hassert]
    simp [hbackup, hcp, hrl, hrc, hpol, standardize_eval_config]

/-- Concrete legacy log content for the standardize witnesses. -/
def c3stdlog : List String :=
  ["trainer : saving checkpoint-epoch100.pth ...", "Training took 2 days"]

/-- Concrete file system holding the source artifacts of one deprecated
experiment. -/
def c3fs : FS := fun p =>
  if p = "srv/run1/config.json" then some "CFG"
  else if p = "srv/run1/model_best.pth" then some "MODEL"
  else none

/-- The file system after the copy phase of the modernize witness. -/
def c3fsc : FS :=
  setFile (setFile c3fs (dest_config_path "data/saved" "exp" (lastComponent "srv/run1")) "CFG")
    (dest_model_path "data/saved" "exp" (lastComponent "srv/run1")) "MODEL"

/-- Concrete file system holding the canonical artifacts of one
non-standard experiment. -/
def c3gs : FS := fun p =>
  if p = "data/saved/log/std/run2/info.log" then some (joinLines c3stdlog)
  else if p = "data/saved/models/std/run2/config.json" then some "SCFG"
  else if p = "data/saved/models/std/run2/checkpoint-epoch100.pth" then some "SMODEL"
  else none

/-- The file system after the backup copy of the standardize witness. -/
def c3gs2 : FS :=
  setFile c3gs (dest_log_path "data/saved" "std" "run2" ++ ".backup") (joinLines c3stdlog)

/-- Concrete deprecated experiment (empty event stream). -/
def c3mod : ModExperiment :=
  { key := "exp", rel_dir := "srv/run1", tbName := "events.out.tfevents.1",
    stream := { records := [], dataLoss := false } }

/-- Concrete non-standard experiment. -/
def c3std : StdExperiment := { key := "std", timestamp := "run2", epoch := 100 }

/-- The log generated by `parse_old_log` in the standardize witness. -/
def c3sgen : List String :=
  ["This log was generated from an existing log for experiemnt run2",
   "Launching experiment with config:", "SCFG",
   "trainer : saving checkpoint-epoch100.pth ...", "Training took 2 days"]

theorem C3_eval_targets_witness :
    modernize_step "data/saved" false (fun _ g => g) c3mod c3fs =
      some (setFile c3fsc (dest_log_path "data/saved" "exp" (lastComponent "srv/run1"))
        (joinLines ["This log was generated from tensorboard file events.out.tfevents.1"])) ∧
    standardize_step "data/saved" false (fun _ g => g) c3std c3gs =
      some (setFile (removeFile c3gs2 (dest_log_path "data/saved" "std" "run2"))
        (dest_log_path "data/saved" "std" "run2") (joinLines c3sgen)) :=
  C3_eval_targets "data/saved" (fun _ g => g) c3mod c3fs c3fsc
    ["This log was generated from tensorboard file events.out.tfevents.1"]
    c3std c3gs c3gs2 c3stdlog ["SCFG"] c3sgen
    rfl rfl rfl rfl rfl rfl rfl rfl rfl

theorem setFile_self (fs : FS) (p c : String) : setFile fs p c p = some c := by
  simp [setFile]

theorem setFile_ne (fs : FS) (p c q : String) (h : q ≠ p) : setFile fs p c q = fs q := by
  simp [setFile, h]

theorem removeFile_ne (fs : FS) (p q : String) (h : q ≠ p) : removeFile fs p q = fs q := by
  simp [removeFile, h]

theorem fileExists_setFile_ne (fs : FS) (p c q : String) (h : q ≠ p) :
    fileExists (setFile fs p c) q = fileExists fs q := by
  simp [fileExists, setFile, h]

theorem append_backup_ne (p : String) : p ++ ".backup" ≠ p := by
  intro h
  have hl := congrArg String.length h
  rw [String.length_append] at hl
  have h7 : String.length ".backup" = 7 := rfl
  omega

/-- C6: with the refresh flag unset, an artifact whose destination already
exists is not copied: whenever the copy phase succeeds, an existing
destination config (resp. model) file keeps its contents, and if both
destinations exist the file system is untouched. -/
theorem C6_no_overwrite (src_config config_path src_model model_path : String)
    (fs fs2 : FS) (hne : config_path ≠ model_path)
    (hrun : modernize_copy_phase false src_config config_path src_model model_path fs =
      some fs2) :
    (fileExists fs config_path = true → fs2 config_path = fs config_path) ∧
    (fileExists fs model_path = true → fs2 model_path = fs model_path) ∧
    (fileExists fs config_path = true → fileExists fs model_path = true →
      ∀ q, fs2 q = fs q) := by
  unfold modernize_copy_phase at hrun
  by_cases hc : fileExists fs config_path = true
  · simp only [hc, Bool.not_true, Bool.or_false, Bool.false_eq_true, if_false,
      Option.some_bind] at hrun
    by_cases hm : fileExists fs model_path = true
    · simp only [hm, Bool.not_true, Bool.or_false, Bool.false_eq_true, if_false] at hrun
      injection hrun with h2
      subst h2
      exact ⟨fun _ => rfl, fun _ => rfl, fun _ _ _ => rfl⟩
    · have hmf : fileExists fs model_path = false := by
        simpa using hm
      simp only [hmf, Bool.not_false, Bool.true_or, if_true, copyfile] at hrun
      cases hsrc : fs src_model with
      | none => simp [hsrc] at hrun
      | some c =>
        simp only [hsrc] at hrun
        injection hrun with h2
        subst h2
        refine ⟨fun _ => setFile_ne fs model_path c config_path hne, ?_, ?_⟩
        · intro hmm
          rw [hmf] at hmm
          cases hmm
        · intro _ hmm
          rw [hmf] at hmm
          cases hmm
  · have hcf : fileExists fs config_path = false := by
      simpa using hc
    simp only [hcf, Bool.not_false, Bool.true_or, if_true, copyfile] at hrun
    cases hsrc : fs src_config with
    | none => simp [hsrc] at hrun
    | some c =>
      simp only [hsrc, Option.some_bind] at hrun
      refine ⟨?_, ?_, ?_⟩
      · intro hcc
        rw [hcf] at hcc
        cases hcc
      · intro hmm
        rw [fileExists_setFile_ne fs config_path c model_path (fun h => hne h.symm), hmm]
          at hrun
        simp only [Bool.not_true, Bool.or_false, Bool.false_eq_true, if_false] at hrun
        injection hrun with h2
        subst h2
        exact setFile_ne fs config_path c model_path (fun h => hne h.symm)
      · intro hcc _
        rw [hcf] at hcc
        cases hcc

/-- Concrete file system for the C6 witness: the destination config
already exists, the destination model does not. -/
def c6fs : FS := fun p =>
  if p = "data/saved/models/exp/run1/config.json" then some "OLDCFG"
  else if p = "srv/run1/config.json" then some "CFG"
  else if p = "srv/run1/model_best.pth" then some "MODEL"
  else none

/-- Result of the copy phase on `c6fs`: only the model is copied. -/
def c6res : FS := setFile c6fs (dest_model_path "data/saved" "exp" "run1") "MODEL"

theorem C6_no_overwrite_witness :
    fileExists c6fs (dest_config_path "data/saved" "exp" "run1") = true ∧
    c6res (dest_config_path "data/saved" "exp" "run1") =
      c6fs (dest_config_path "data/saved" "exp" "run1") :=
  have h := C6_no_overwrite "srv/run1/config.json"
    (dest_config_path "data/saved" "exp" "run1") "srv/run1/model_best.pth"
    (dest_model_path "data/saved" "exp" "run1") c6fs c6res (by decide) rfl
  ⟨rfl, h.1 rfl⟩

theorem modernize_copy_phase_skip (src_config config_path src_model model_path : String)
    (fs : FS) (hc : fileExists fs config_path = true)
    (hm : fileExists fs model_path = true) :
    modernize_copy_phase false src_config config_path src_model model_path fs = some fs := by
  unfold modernize_copy_phase
  simp [hc, hm]

theorem modernize_step_skip (save_dir : String) (evalFn : EvalConfig → FS → FS)
    (e : ModExperiment) (fs : FS)
    (hc : fileExists fs (dest_config_path save_dir e.key (lastComponent e.rel_dir)) = true)
    (hm : fileExists fs (dest_model_path save_dir e.key (lastComponent e.rel_dir)) = true)
    (hl : fileExists fs (dest_log_path save_dir e.key (lastComponent e.rel_dir)) = true) :
    modernize_step save_dir false evalFn e fs = some fs := by
  unfold modernize_step
  rw [modernize_copy_phase_skip _ _ _ _ _ hc hm]
  simp [hl]

theorem standardize_step_skip (save_dir : String) (evalFn : EvalConfig → FS → FS)
    (e : StdExperiment) (fs : FS)
    (hl : fileExists fs (dest_log_path save_dir e.key e.timestamp) = true)
    (hc : fileExists fs (dest_config_path save_dir e.key e.timestamp) = true)
    (hm : fileExists fs (ckpt_model_path save_dir e.key e.timestamp e.epoch) = true)
    (hb : fileExists fs (dest_log_path save_dir e.key e.timestamp ++ ".backup") = true) :
    standardize_step save_dir false evalFn e fs = some fs := by
  unfold standardize_step
  simp [hl, hc, hm, hb]

theorem modernize_exp_dir_noop (save_dir : String) (evalFn : EvalConfig → FS → FS)
    (mods : List ModExperiment) :
    ∀ fs : FS, (∀ e ∈ mods,
      fileExists fs (dest_config_path save_dir e.key (lastComponent e.rel_dir)) = true ∧
      fileExists fs (dest_model_path save_dir e.key (lastComponent e.rel_dir)) = true ∧
      fileExists fs (dest_log_path save_dir e.key (lastComponent e.rel_dir)) = true) →
    modernize_exp_dir save_dir false evalFn mods fs = some fs := by
  induction mods with
  | nil => intro fs _; rfl
  | cons e rest ih =>
    intro fs h
    obtain ⟨hc, hm, hl⟩ := h e (List.mem_cons_self e rest)
    unfold modernize_exp_dir
    rw [modernize_step_skip save_dir evalFn e fs hc hm hl]
    simp only [Option.some_bind]
    exact ih fs (fun x hx => h x (List.mem_cons_of_mem e hx))

theorem standardize_exp_dir_noop (save_dir : String) (evalFn : EvalConfig → FS → FS)
    (stds : List StdExperiment) :
    ∀ fs : FS, (∀ e ∈ stds,
      fileExists fs (dest_log_path save_dir e.key e.timestamp) = true ∧
      fileExists fs (dest_config_path save_dir e.key e.timestamp) = true ∧
      fileExists fs (ckpt_model_path save_dir e.key e.timestamp e.epoch) = true ∧
      fileExists fs (dest_log_path save_dir e.key e.timestamp ++ ".backup") = true) →
    standardize_exp_dir save_dir false evalFn stds fs = some fs := by
  induction stds with
  | nil => intro fs _; rfl
  | cons e rest ih =>
    intro fs h
    obtain ⟨hl, hc, hm, hb⟩ := h e (List.mem_cons_self e rest)
    unfold standardize_exp_dir
    rw [standardize_step_skip save_dir evalFn e fs hl hc hm hb]
    simp only [Option.some_bind]
    exact ih fs (fun x hx => h x (List.mem_cons_of_mem e hx))

/-- C7: a second run with the refresh flag unset is a no-op.  When every
experiment's destination artifacts already exist (modernize: copied config,
copied model, generated log; standardize: the backup log next to the
asserted artifacts), both pipelines return the file system unchanged —
in particular, since the result holds for an arbitrary external evaluation
routine, evaluation is never invoked. -/
theorem C7_rerun_noop (save_dir : String) (evalFn evalFn2 : EvalConfig → FS → FS)
    (mods : List ModExperiment) (stds : List StdExperiment) (fs : FS)
    (hmod : ∀ e ∈ mods,
      fileExists fs (dest_config_path save_dir e.key (lastComponent e.rel_dir)) = true ∧
      fileExists fs (dest_model_path save_dir e.key (lastComponent e.rel_dir)) = true ∧
      fileExists fs (dest_log_path save_dir e.key (lastComponent e.rel_dir)) = true)
    (hstd : ∀ e ∈ stds,
      fileExists fs (dest_log_path save_dir e.key e.timestamp) = true ∧
      fileExists fs (dest_config_path save_dir e.key e.timestamp) = true ∧
      fileExists fs (ckpt_model_path save_dir e.key e.timestamp e.epoch) = true ∧
      fileExists fs (dest_log_path save_dir e.key e.timestamp ++ ".backup") = true) :
    modernize_exp_dir save_dir false evalFn mods fs = some fs ∧
    standardize_exp_dir save_dir false evalFn2 stds fs = some fs :=
  ⟨modernize_exp_dir_noop save_dir evalFn mods fs hmod,
   standardize_exp_dir_noop save_dir evalFn2 stds fs hstd⟩

/-- Concrete file system for the C7 witness: all destination artifacts of
both experiments already exist. -/
def c7fs : FS := fun p =>
  if p = "data/saved/models/exp/run1/config.json" then some "CFG"
  else if p = "data/saved/models/exp/run1/model_best.pth" then some "MODEL"
  else if p = "data/saved/log/exp/run1/info.log" then some "LOG"
  else if p = "data/saved/log/std/run2/info.log" then some "SLOG"
  else if p = "data/saved/models/std/run2/config.json" then some "SCFG"
  else if p = "data/saved/models/std/run2/checkpoint-epoch100.pth" then some "SMODEL"
  else if p = "data/saved/log/std/run2/info.log.backup" then some "SBACKUP"
  else none

theorem C7_rerun_noop_witness :
    modernize_exp_dir "data/saved" false (fun _ g => g) [c3mod] c7fs = some c7fs ∧
    standardize_exp_dir "data/saved" false (fun _ g => g) [c3std] c7fs = some c7fs :=
  C7_rerun_noop "data/saved" (fun _ g => g) (fun _ g => g) [c3mod] [c3std] c7fs
    (by decide) (by decide)

/-- C10: the original log is never lost.  For any successful run of one
standardize iteration (with an evaluation routine that leaves the backup
path alone, it being outside the script's own writes): whenever the backup
is created on this run (it was absent, or a refresh is forced) the backup
file afterwards holds exactly the pre-migration log text, and in every
case the backup file exists afterwards. -/
theorem C10_backup_preserves_log (save_dir : String) (refresh : Bool)
    (evalFn : EvalConfig → FS → FS) (e : StdExperiment) (fs fs2 : FS)
    (heval : ∀ cfg g, evalFn cfg g (dest_log_path save_dir e.key e.timestamp ++ ".backup") =
      g (dest_log_path save_dir e.key e.timestamp ++ ".backup"))
    (hrun : standardize_step save_dir refresh evalFn e fs = some fs2) :
    ((fileExists fs (dest_log_path save_dir e.key e.timestamp ++ ".backup") = false ∨
        refresh = true) →
      fs2 (dest_log_path save_dir e.key e.timestamp ++ ".backup") =
        fs (dest_log_path save_dir e.key e.timestamp)) ∧
    fileExists fs2 (dest_log_path save_dir e.key e.timestamp ++ ".backup") = true := by
  unfold standardize_step at hrun
  by_cases hassert : (fileExists fs (dest_log_path save_dir e.key e.timestamp) &&
      fileExists fs (dest_config_path save_dir e.key e.timestamp) &&
      fileExists fs (ckpt_model_path save_dir e.key e.timestamp e.epoch)) = true
  · rw [if_pos hassert] at hrun
    by_cases hb : (!(fileExists fs (dest_log_path save_dir e.key e.timestamp ++ ".backup"))
        || refresh) = true
    · rw [if_pos hb] at hrun
      unfold copyfile at hrun
      cases hsrc : fs (dest_log_path save_dir e.key e.timestamp) with
      | none => simp [hsrc] at hrun
      | some c =>
        simp only [hsrc, Option.some_bind] at hrun
        split at hrun
        · split at hrun
          · cases hrun
          · injection hrun with h2
            subst h2
            constructor
            · intro _
              rw [heval, setFile_ne _ _ _ _ (append_backup_ne _),
                removeFile_ne _ _ _ (append_backup_ne _), setFile_self]
            · rw [fileExists, heval, setFile_ne _ _ _ _ (append_backup_ne _),
                removeFile_ne _ _ _ (append_backup_ne _), setFile_self]
              rfl
        · cases hrun
    · rw [if_neg hb] at hrun
      injection hrun with h2
      subst h2
      rw [Bool.or_eq_true, not_or] at hb
      obtain ⟨hb1, hb2⟩ := hb
      have hbt1 : fileExists fs (dest_log_path save_dir e.key e.timestamp ++ ".backup") =
          true := by
        rcases Bool.eq_false_or_eq_true
          (fileExists fs (dest_log_path save_dir e.key e.timestamp ++ ".backup")) with h | h
        · exact h
        · exact absurd (by rw [h]; rfl) hb1
      have hbt2 : refresh = false := by
        rcases Bool.eq_false_or_eq_true refresh with h | h
        · exact absurd h hb2
        · exact h
      refine ⟨fun h => ?_, hbt1⟩
      rcases h with h | h
      · rw [hbt1] at h; cases h
      · rw [hbt2] at h; cases h
  · rw [if_neg hassert] at hrun
    cases hrun

/-- Result state of one standardize iteration on `c3gs`. -/
def c10res : FS :=
  setFile (removeFile c3gs2 (dest_log_path "data/saved" "std" "run2"))
    (dest_log_path "data/saved" "std" "run2") (joinLines c3sgen)

theorem C10_backup_preserves_log_witness :
    c10res (dest_log_path "data/saved" "std" "run2" ++ ".backup") =
      c3gs (dest_log_path "data/saved" "std" "run2") ∧
    fileExists c10res (dest_log_path "data/saved" "std" "run2" ++ ".backup") = true :=
  have h := C10_backup_preserves_log "data/saved" false (fun _ g => g) c3std c3gs c10res
    (fun _ _ => rfl) rfl
  ⟨h.1 (Or.inl rfl), h.2⟩

end DVE
